import Mathlib

/-!
Verification of the badge-quest repository: a shallow embedding of
`src/utils/date.utils.ts` and `src/toast/toast.service.ts` in Lean 4,
with theorems settling the specification's claims about them.

Conventions of the embedding:

* JavaScript `number` values that hold integral millisecond timestamps or
  durations are modelled as `Int`; the one place real-valued division is
  observable (`diffTime`) returns `ℚ`.
* A JavaScript `Date` is semantically its timestamp (milliseconds since the
  Unix epoch, UTC).  The runtime conversion between timestamps and calendar
  dates (used by `toISOString` and by parsing of `YYYY-MM-DD` strings,
  ECMA-262 MakeDay / YearFromTime et al.) is modelled by `daysFromCivil` /
  `civilFromDays` below, the standard era-decomposition algorithm for the
  proleptic Gregorian calendar.
* A canonical `YYYY-MM-DD` date string is represented by its content, a
  `CivilDate` record; `renderISODate` produces the actual string.
* Code that throws (`toDate` on unparsable input, the `Date` range limit)
  is modelled with `Option`: `none` stands for the thrown `RangeError`.
* The toast service's RxJS `BehaviorSubject` is modelled by recording, next
  to the current list, the sequence of lists emitted by `next` calls; the
  one-shot `timer(duration)` subscriptions are modelled by a pending-timer
  list `(fireAt, id)` together with `fireDue`, which fires every timer due
  at a given instant, each firing performing the same `dismiss` the source's
  timer callback performs.
* `Date.now()` and `Math.random()` are nondeterministic inputs of the
  runtime; they enter the model as explicit arguments (`now`, `rand`).
-/

/-! ## Calendar core: model of the JS runtime's timestamp/calendar conversion -/

/-- A calendar date in the proleptic Gregorian calendar; the content of a
canonical `YYYY-MM-DD` ISO date string (month and day are 1-based). -/
structure CivilDate where
  year : Int
  month : Nat
  day : Nat
  deriving DecidableEq, Repr

/-- Year of era (0..399) from day of era (0..146096); Gregorian-era
decomposition of the runtime's YearFromTime. -/
def yoeOfDoe (doe : Nat) : Nat :=
  (doe - doe / 1460 + doe / 36524 - doe / 146096) / 365

/-- First day-of-era of a given year-of-era (March-anchored year), for
`y ≤ 399`. -/
def yearStart (y : Nat) : Nat := 365 * y + y / 4 - y / 100

/-- One past the last day-of-era of year-of-era `y` (the era has 146097
days in total). -/
def yearEnd (y : Nat) : Nat := if y = 399 then 146097 else yearStart (y + 1)

/-- Day of the (March-anchored) year from day of era. -/
def doyOfDoe (doe : Nat) : Nat := doe - yearStart (yoeOfDoe doe)

/-- Shifted month index (0 = March .. 11 = February) from day of year. -/
def mpOfDoy (doy : Nat) : Nat := (5 * doy + 2) / 153

/-- Day of month (1-based) from day of year. -/
def dayOfDoy (doy : Nat) : Nat := doy - (153 * mpOfDoy doy + 2) / 5 + 1

/-- Civil month (1 = January .. 12 = December) from day of year. -/
def monthOfDoy (doy : Nat) : Nat :=
  if mpOfDoy doy < 10 then mpOfDoy doy + 3 else mpOfDoy doy - 9

/-- Year-of-era, civil month and day from a day of era. -/
def civilOfDoe (doe : Nat) : Nat × Nat × Nat :=
  (yoeOfDoe doe, monthOfDoy (doyOfDoe doe), dayOfDoy (doyOfDoe doe))

/-- Shifted month index from civil month. -/
def mpOfMonth (m : Nat) : Nat := if 2 < m then m - 3 else m + 9

/-- Day of era from year-of-era, civil month and day. -/
def doeOfCivil (yoe m d : Nat) : Nat :=
  yearStart yoe + ((153 * mpOfMonth m + 2) / 5 + d - 1)

/-- Calendar date of a day number (days since 1970-01-01, may be negative);
model of the runtime's timestamp-to-calendar conversion. -/
def civilFromDays (z : Int) : CivilDate :=
  let era : Int := (z + 719468) / 146097
  let doe : Nat := ((z + 719468) % 146097).toNat
  let y : Int := era * 400 + (civilOfDoe doe).1
  { year := if (civilOfDoe doe).2.1 ≤ 2 then y + 1 else y
    month := (civilOfDoe doe).2.1
    day := (civilOfDoe doe).2.2 }

/-- Day number of a calendar date; model of the runtime's MakeDay. -/
def daysFromCivil (c : CivilDate) : Int :=
  let y : Int := if c.month ≤ 2 then c.year - 1 else c.year
  let era : Int := y / 400
  let yoe : Nat := (y % 400).toNat
  era * 146097 + (doeOfCivil yoe c.month c.day : Int) - 719468

/-- Gregorian leap-year test on a year-of-era-like natural number. -/
def isLeapNat (k : Nat) : Bool :=
  decide ((k % 4 = 0 ∧ ¬ k % 100 = 0) ∨ k % 400 = 0)

/-! ## Date utilities (`src/utils/date.utils.ts`) -/

/-- Source: `isLeapYear(year)` — `(year % 4 === 0 && year % 100 !== 0) ||
year % 400 === 0`.  (JS `%` is truncated remainder, Lean's is Euclidean;
both remainders are zero exactly on divisibility, so the tests agree.) -/
def isLeapYear (year : Int) : Bool :=
  decide ((year % 4 = 0 ∧ ¬ year % 100 = 0) ∨ year % 400 = 0)

/-- Length of a civil month, leap-year aware; used to model the runtime's
validation of `YYYY-MM-DD` date strings. -/
def monthLength (year : Int) (m : Nat) : Nat :=
  if m = 2 then (if isLeapYear year then 29 else 28)
  else if m = 4 ∨ m = 6 ∨ m = 9 ∨ m = 11 then 30
  else 31

/-- A `CivilDate` that a canonical `YYYY-MM-DD` string can hold and that the
runtime accepts as a valid date. -/
def validCivil (c : CivilDate) : Bool :=
  decide (1 ≤ c.month) && decide (c.month ≤ 12) &&
  decide (1 ≤ c.day) && decide (c.day ≤ monthLength c.year c.month) &&
  decide (0 ≤ c.year) && decide (c.year ≤ 9999)

/-- Source: `type DateInput = Date | string | number`.  A `Date` and a
`number` both carry a timestamp; a string input is restricted to the
canonical ISO date form, represented by its content. -/
inductive DateInput where
  | ofDate (ms : Int)
  | ofString (c : CivilDate)
  | ofNumber (ms : Int)
  deriving DecidableEq, Repr

/-- Milliseconds per day. -/
def msPerDay : Int := 86400000

/-- The JS `Date` range limit: timestamps are valid iff `|t| ≤ 8.64e15`. -/
def jsTimeMax : Nat := 8640000000000000

/-- Source: `toDate(input)` — `new Date(input)` followed by an `isNaN`
check that throws `RangeError` on an invalid date.  The result is the
constructed `Date`'s timestamp; `none` models the throw.  A `YYYY-MM-DD`
string parses to UTC midnight of that calendar date (ECMA-262 date-only
form), and is invalid if the fields do not denote a real calendar date. -/
def toDate : DateInput → Option Int
  | .ofDate t => if t.natAbs ≤ jsTimeMax then some t else none
  | .ofNumber t => if t.natAbs ≤ jsTimeMax then some t else none
  | .ofString c => if validCivil c then some (daysFromCivil c * msPerDay) else none

/-- Calendar date shown by `toISOString` for a timestamp (UTC). -/
def isoTripleOfTime (t : Int) : CivilDate := civilFromDays (t / msPerDay)

/-- Left-pad the decimal rendering of `n` with zeros to width `w`. -/
def padNum (w : Nat) (n : Nat) : String :=
  let s := toString n
  String.mk (List.replicate (w - s.length) '0') ++ s

/-- The `YYYY-MM-DD` string of a `CivilDate` (years 0..9999). -/
def renderISODate (c : CivilDate) : String :=
  padNum 4 c.year.toNat ++ "-" ++ padNum 2 c.month ++ "-" ++ padNum 2 c.day

/-- Source: `toISODateString(input)` — `toDate(input).toISOString().split('T')[0]`,
i.e. the `YYYY-MM-DD` part of the ISO rendering of the parsed date. -/
def toISODateString (x : DateInput) : Option String :=
  (toDate x).map (fun t => renderISODate (isoTripleOfTime t))

/-- Source: `type TimeUnit`. -/
inductive TimeUnit where
  | milliseconds | seconds | minutes | hours | days | weeks | months | years
  deriving DecidableEq, Repr

/-- Source: the `msPerUnit` record inside `diffTime`. -/
def msPerUnit : TimeUnit → ℚ
  | .milliseconds => 1
  | .seconds => 1000
  | .minutes => 60000
  | .hours => 3600000
  | .days => 86400000
  | .weeks => 604800000
  | .months => 2592000000
  | .years => 31536000000

/-- Source: `diffTime(a, b, unit)` — `(toDate(a).getTime() - toDate(b).getTime())
/ msPerUnit[unit]`.  JS real division is modelled by exact division in `ℚ`. -/
def diffTime (a b : DateInput) (unit : TimeUnit) : Option ℚ := do
  let msA ← toDate a
  let msB ← toDate b
  pure ((((msA - msB : Int)) : ℚ) / msPerUnit unit)

/-! ## Toast service (`src/toast/toast.service.ts`) -/

/-- Source: `type ToastType = 'success' | 'error' | 'warning' | 'info'`. -/
inductive ToastType where
  | success | error | warning | info
  deriving DecidableEq, Repr

/-- Source: `interface Toast`.  `createdAt` holds `new Date().toISOString()`;
it is modelled by the creation timestamp that rendering would be applied to
(the rendering is injective, and `createdAt` is informational only). -/
structure Toast where
  id : String
  message : String
  type : ToastType
  duration : Int
  createdAt : Nat
  deriving DecidableEq, Repr

/-- Source: the `DEFAULT_DURATION` record. -/
def DEFAULT_DURATION : ToastType → Int
  | .success => 4000
  | .info => 5000
  | .warning => 6000
  | .error => 8000

/-- State of a `ToastService` instance: the `BehaviorSubject`'s current
value, the sequence of lists it has emitted (its initial value `[]`
followed by every `next` argument, in order), and the pending one-shot
timers `(fireAt, id)` created by `show`. -/
structure ServiceState where
  toasts : List Toast
  published : List (List Toast)
  timers : List (Nat × String)
  deriving DecidableEq, Repr

/-- A freshly constructed service: `new BehaviorSubject<Toast[]>([])`. -/
def initState : ServiceState := { toasts := [], published := [[]], timers := [] }

/-- Source: `this._toasts$.next(l)` — replaces the current list and emits it
to all subscribers. -/
def next (l : List Toast) (s : ServiceState) : ServiceState :=
  { s with toasts := l, published := s.published ++ [l] }

/-- Source: `generateId()` — `` `toast-${Date.now()}-${Math.random()...}` ``;
the `Date.now()` value and the random suffix are inputs of the model. -/
def generateId (now : Nat) (rand : String) : String :=
  "toast-" ++ toString now ++ "-" ++ rand

/-- Source: `dismiss(id)` — `next` of the current list filtered to the
toasts whose id differs from `id`. -/
def dismiss (id : String) (s : ServiceState) : ServiceState :=
  next (s.toasts.filter (fun t => t.id != id)) s

/-- Source: `dismissAll()` — `next([])`. -/
def dismissAll (s : ServiceState) : ServiceState := next [] s

/-- Source: the private `show(message, type, duration?)`.  It resolves the
duration, appends a freshly built toast, emits the new list, and — only when
the resolved duration is strictly positive — schedules a one-shot timer that
will dismiss that toast's id.  Its TypeScript return type is `void`: the
second component of the result is the returned value. -/
def show' (s : ServiceState) (message : String) (type : ToastType)
    (duration : Option Int) (now : Nat) (rand : String) : ServiceState × Unit :=
  let resolvedDuration := duration.getD (DEFAULT_DURATION type)
  let toast : Toast :=
    { id := generateId now rand, message := message, type := type
      duration := resolvedDuration, createdAt := now }
  let s1 := next (s.toasts ++ [toast]) s
  if resolvedDuration > 0 then
    ({ s1 with timers := s1.timers ++ [(now + resolvedDuration.toNat, toast.id)] }, ())
  else
    (s1, ())

/-- Source: `success(message, duration?)` — `this.show(message, 'success', duration)`. -/
def success (s : ServiceState) (message : String) (duration : Option Int)
    (now : Nat) (rand : String) : ServiceState × Unit :=
  show' s message ToastType.success duration now rand

/-- Source: `error(message, duration?)` — `this.show(message, 'error', duration)`. -/
def error (s : ServiceState) (message : String) (duration : Option Int)
    (now : Nat) (rand : String) : ServiceState × Unit :=
  show' s message ToastType.error duration now rand

/-- Source: `warning(message, duration?)` — `this.show(message, 'warning', duration)`. -/
def warning (s : ServiceState) (message : String) (duration : Option Int)
    (now : Nat) (rand : String) : ServiceState × Unit :=
  show' s message ToastType.warning duration now rand

/-- Source: `info(message, duration?)` — `this.show(message, 'info', duration)`. -/
def info (s : ServiceState) (message : String) (duration : Option Int)
    (now : Nat) (rand : String) : ServiceState × Unit :=
  show' s message ToastType.info duration now rand

/-- Fire every pending timer due at time `t`: each due timer performs the
`dismiss(toast.id)` of its `tap` callback, in scheduling order; the
remaining timers stay pending. -/
def fireDue (t : Nat) (s : ServiceState) : ServiceState :=
  ((s.timers.filter (fun p => decide (p.1 ≤ t))).map Prod.snd).foldl
    (fun st i => dismiss i st)
    { s with timers := s.timers.filter (fun p => decide (t < p.1)) }

/-- The public operations of the service, with the nondeterministic runtime
inputs (`Date.now()`, random suffix) a `show` call consumes made explicit. -/
inductive Op where
  | showOp (message : String) (type : ToastType) (duration : Option Int)
      (now : Nat) (rand : String)
  | dismissOp (id : String)
  | dismissAllOp
  deriving DecidableEq, Repr

/-- Interpret one operation on the service state. -/
def runOp (s : ServiceState) : Op → ServiceState
  | .showOp message type duration now rand => (show' s message type duration now rand).1
  | .dismissOp id => dismiss id s
  | .dismissAllOp => dismissAll s

/-- Interpret a sequence of operations from a given state. -/
def run (s : ServiceState) (ops : List Op) : ServiceState := ops.foldl runOp s

/-- The ids generated by the `show` operations of a sequence, in order. -/
def genIds (ops : List Op) : List String :=
  ops.filterMap (fun op => match op with
    | .showOp _ _ _ now rand => some (generateId now rand)
    | _ => none)

/-! ## Calendar lemmas -/

theorem nadj_mono (d : Nat) :
    d - d / 1460 + d / 36524 - d / 146096 ≤
      (d + 1) - (d + 1) / 1460 + (d + 1) / 36524 - (d + 1) / 146096 := by
  omega

theorem yoeOfDoe_mono {a b : Nat} (h : a ≤ b) : yoeOfDoe a ≤ yoeOfDoe b := by
  induction b with
  | zero => simp_all [yoeOfDoe]
  | succ b ih =>
    rcases Nat.lt_or_ge a (b + 1) with h1 | h1
    · exact le_trans (ih (by omega)) (Nat.div_le_div_right (nadj_mono b))
    · have hab : a = b + 1 := by omega
      subst hab
      exact le_refl _

set_option maxRecDepth 8000 in
theorem yoeOfDoe_yearStart : ∀ y : Nat, y < 400 → yoeOfDoe (yearStart y) = y := by
  decide

set_option maxRecDepth 8000 in
theorem yoeOfDoe_yearEnd : ∀ y : Nat, y < 400 → yoeOfDoe (yearEnd y - 1) = y := by
  decide

set_option maxRecDepth 8000 in
theorem yearEnd_le_leap : ∀ y : Nat, y < 400 →
    yearEnd y ≤ yearStart y + 366 ∧
    (yearEnd y = yearStart y + 366 → isLeapNat (y + 1) = true) := by
  decide

theorem year_exists : ∀ doe : Nat, doe < 146097 →
    ∃ y, y < 400 ∧ yearStart y ≤ doe ∧ doe < yearEnd y := by
  intro doe
  induction doe with
  | zero => exact fun _ => ⟨0, by decide, by decide, by decide⟩
  | succ n ih =>
    intro h
    obtain ⟨y, hy, h1, h2⟩ := ih (by omega)
    rcases Nat.lt_or_ge (n + 1) (yearEnd y) with h3 | h3
    · exact ⟨y, hy, by omega, h3⟩
    · have hne : y ≠ 399 := by
        intro he
        rw [he] at h3
        have h399 : yearEnd 399 = 146097 := by decide
        omega
      have hEq : yearEnd y = yearStart (y + 1) := by
        simp [yearEnd, hne]
      by_cases h4 : y + 1 = 399
      · have he2 : yearEnd (y + 1) = 146097 := by
          simp [yearEnd, h4]
        exact ⟨y + 1, by omega, by omega, by omega⟩
      · have he2 : yearEnd (y + 1) = yearStart (y + 2) := by
          simp [yearEnd, h4]
        have hlt : yearStart (y + 1) < yearStart (y + 2) := by
          simp only [yearStart]
          omega
        exact ⟨y + 1, by omega, by omega, by omega⟩

theorem yoe_correct (doe : Nat) (h : doe < 146097) :
    yoeOfDoe doe < 400 ∧ yearStart (yoeOfDoe doe) ≤ doe ∧ doe < yearEnd (yoeOfDoe doe) := by
  obtain ⟨y, hy, h1, h2⟩ := year_exists doe h
  have e1 : yoeOfDoe (yearStart y) = y := yoeOfDoe_yearStart y hy
  have e2 : yoeOfDoe (yearEnd y - 1) = y := yoeOfDoe_yearEnd y hy
  have m1 : yoeOfDoe (yearStart y) ≤ yoeOfDoe doe := yoeOfDoe_mono h1
  have m2 : yoeOfDoe doe ≤ yoeOfDoe (yearEnd y - 1) := yoeOfDoe_mono (by omega)
  have hEq : yoeOfDoe doe = y := by omega
  rw [hEq]
  exact ⟨hy, h1, h2⟩

theorem doy_le (doe : Nat) (h : doe < 146097) : doyOfDoe doe ≤ 365 := by
  obtain ⟨hy, h1, h2⟩ := yoe_correct doe h
  have := (yearEnd_le_leap (yoeOfDoe doe) hy).1
  simp only [doyOfDoe]
  omega

theorem doy_365_leap (doe : Nat) (h : doe < 146097) (h365 : doyOfDoe doe = 365) :
    isLeapNat (yoeOfDoe doe + 1) = true := by
  obtain ⟨hy, h1, h2⟩ := yoe_correct doe h
  obtain ⟨hle, hlp⟩ := yearEnd_le_leap (yoeOfDoe doe) hy
  simp only [doyOfDoe] at h365
  exact hlp (by omega)

theorem mp_le (doy : Nat) (h : doy ≤ 365) : mpOfDoy doy ≤ 11 := by
  simp only [mpOfDoy]
  omega

theorem mp_floor_le (doy : Nat) (_h : doy ≤ 365) :
    (153 * mpOfDoy doy + 2) / 5 ≤ doy := by
  simp only [mpOfDoy]
  omega

theorem month_range (doy : Nat) (h : doy ≤ 365) :
    1 ≤ monthOfDoy doy ∧ monthOfDoy doy ≤ 12 := by
  have h1 := mp_le doy h
  simp only [monthOfDoy]
  split <;> omega

theorem mp_month_roundtrip (doy : Nat) (h : doy ≤ 365) :
    mpOfMonth (monthOfDoy doy) = mpOfDoy doy := by
  have h1 := mp_le doy h
  simp only [monthOfDoy, mpOfMonth]
  rcases Nat.lt_or_ge (mpOfDoy doy) 10 with h2 | h2
  · rw [if_pos h2, if_pos (show 2 < mpOfDoy doy + 3 by omega)]
    omega
  · rw [if_neg (show ¬ mpOfDoy doy < 10 by omega),
      if_neg (show ¬ 2 < mpOfDoy doy - 9 by omega)]
    omega

theorem doy_roundtrip (doy : Nat) (h : doy ≤ 365) :
    (153 * mpOfMonth (monthOfDoy doy) + 2) / 5 + dayOfDoy doy - 1 = doy := by
  have h1 := mp_floor_le doy h
  rw [mp_month_roundtrip doy h]
  simp only [dayOfDoy]
  omega

theorem doe_roundtrip (doe : Nat) (h : doe < 146097) :
    doeOfCivil (yoeOfDoe doe) (monthOfDoy (doyOfDoe doe)) (dayOfDoy (doyOfDoe doe)) = doe := by
  obtain ⟨hy, h1, h2⟩ := yoe_correct doe h
  have hd := doy_le doe h
  simp only [doeOfCivil]
  rw [doy_roundtrip (doyOfDoe doe) hd]
  simp only [doyOfDoe]
  omega

theorem day_bounds (doy : Nat) (h : doy ≤ 365) :
    1 ≤ dayOfDoy doy ∧ dayOfDoy doy ≤ 31 ∧
    (monthOfDoy doy = 4 ∨ monthOfDoy doy = 6 ∨ monthOfDoy doy = 9 ∨ monthOfDoy doy = 11 →
      dayOfDoy doy ≤ 30) ∧
    (monthOfDoy doy = 2 → dayOfDoy doy ≤ 29 ∧ (dayOfDoy doy = 29 → doy = 365)) := by
  have h1 := mp_floor_le doy h
  have h2 := mp_le doy h
  refine ⟨by simp only [dayOfDoy]; omega, ?_, ?_, ?_⟩
  · simp only [dayOfDoy, mpOfDoy] at *
    omega
  · intro hm
    have hmp : mpOfDoy doy = 1 ∨ mpOfDoy doy = 3 ∨ mpOfDoy doy = 6 ∨ mpOfDoy doy = 8 := by
      simp only [monthOfDoy] at hm
      rcases Nat.lt_or_ge (mpOfDoy doy) 10 with h3 | h3
      · rw [if_pos h3] at hm
        omega
      · rw [if_neg (by omega)] at hm
        omega
    simp only [dayOfDoy, mpOfDoy] at *
    omega
  · intro hm
    have hmp : mpOfDoy doy = 11 := by
      simp only [monthOfDoy] at hm
      rcases Nat.lt_or_ge (mpOfDoy doy) 10 with h3 | h3
      · rw [if_pos h3] at hm
        omega
      · rw [if_neg (by omega)] at hm
        omega
    simp only [dayOfDoy, mpOfDoy] at *
    omega

theorem isLeapYear_shift (e : Int) (k : Nat) :
    isLeapYear (e * 400 + (k : Int)) = isLeapNat k := by
  simp only [isLeapYear, isLeapNat]
  rw [decide_eq_decide]
  omega

theorem days_civil_roundtrip (z : Int) : daysFromCivil (civilFromDays z) = z := by
  have h9 : 0 ≤ (z + 719468) % 146097 := Int.emod_nonneg _ (by norm_num)
  have h10 : (z + 719468) % 146097 < 146097 := Int.emod_lt_of_pos _ (by norm_num)
  simp only [civilFromDays, daysFromCivil, civilOfDoe]
  set doe : Nat := ((z + 719468) % 146097).toNat with hdoe
  set era : Int := (z + 719468) / 146097 with hera
  have hlt : doe < 146097 := by omega
  have hdoy := doy_le doe hlt
  obtain ⟨hm1, hm2⟩ := month_range (doyOfDoe doe) hdoy
  have hrt := doe_roundtrip doe hlt
  obtain ⟨hyoe, hys1, hys2⟩ := yoe_correct doe hlt
  by_cases hm : monthOfDoy (doyOfDoe doe) ≤ 2
  · rw [if_pos hm, if_pos hm]
    have e1 : era * 400 + (yoeOfDoe doe : Int) + 1 - 1 = era * 400 + (yoeOfDoe doe : Int) := by
      ring
    rw [e1]
    have e2 : (era * 400 + (yoeOfDoe doe : Int)) / 400 = era := by omega
    have e3 : ((era * 400 + (yoeOfDoe doe : Int)) % 400).toNat = yoeOfDoe doe := by omega
    rw [e2, e3, hrt]
    omega
  · rw [if_neg hm, if_neg hm]
    have e2 : (era * 400 + (yoeOfDoe doe : Int)) / 400 = era := by omega
    have e3 : ((era * 400 + (yoeOfDoe doe : Int)) % 400).toNat = yoeOfDoe doe := by omega
    rw [e2, e3, hrt]
    omega

theorem civil_day_valid (era : Int) (doe : Nat) (hlt : doe < 146097) :
    dayOfDoy (doyOfDoe doe) ≤ monthLength
      (if monthOfDoy (doyOfDoe doe) ≤ 2
        then era * 400 + (yoeOfDoe doe : Int) + 1
        else era * 400 + (yoeOfDoe doe : Int))
      (monthOfDoy (doyOfDoe doe)) := by
  have hdoy := doy_le doe hlt
  obtain ⟨hd1, hd31, hd30, hdfeb⟩ := day_bounds (doyOfDoe doe) hdoy
  obtain ⟨hm1, hm12⟩ := month_range (doyOfDoe doe) hdoy
  by_cases hm2 : monthOfDoy (doyOfDoe doe) = 2
  · obtain ⟨h29, h29l⟩ := hdfeb hm2
    rw [hm2, if_pos (by omega)]
    have hml : ∀ yr : Int, monthLength yr 2 = if isLeapYear yr then 29 else 28 :=
      fun yr => rfl
    rw [hml]
    have hcast : era * 400 + (yoeOfDoe doe : Int) + 1 =
        era * 400 + ((yoeOfDoe doe + 1 : Nat) : Int) := by
      push_cast
      ring
    rw [hcast, isLeapYear_shift]
    by_cases hleap : isLeapNat (yoeOfDoe doe + 1) = true
    · rw [if_pos hleap]
      exact h29
    · rw [if_neg hleap]
      by_cases h29' : dayOfDoy (doyOfDoe doe) = 29
      · exact absurd (doy_365_leap doe hlt (h29l h29')) hleap
      · omega
  · by_cases hm30 : monthOfDoy (doyOfDoe doe) = 4 ∨ monthOfDoy (doyOfDoe doe) = 6 ∨
        monthOfDoy (doyOfDoe doe) = 9 ∨ monthOfDoy (doyOfDoe doe) = 11
    · simp only [monthLength, if_neg hm2, if_pos hm30]
      exact hd30 hm30
    · simp only [monthLength, if_neg hm2, if_neg hm30]
      exact hd31

theorem civilFromDays_valid (z : Int) (h0 : 0 ≤ (civilFromDays z).year)
    (h1 : (civilFromDays z).year ≤ 9999) : validCivil (civilFromDays z) = true := by
  have h9 : 0 ≤ (z + 719468) % 146097 := Int.emod_nonneg _ (by norm_num)
  have h10 : (z + 719468) % 146097 < 146097 := Int.emod_lt_of_pos _ (by norm_num)
  have hlt : ((z + 719468) % 146097).toNat < 146097 := by omega
  obtain ⟨hm1, hm12⟩ := month_range _ (doy_le _ hlt)
  have hday1 := (day_bounds _ (doy_le _ hlt)).1
  have hdayv := civil_day_valid ((z + 719468) / 146097) _ hlt
  simp only [civilFromDays, civilOfDoe] at h0 h1 ⊢
  simp only [validCivil, Bool.and_eq_true, decide_eq_true_eq]
  exact ⟨⟨⟨⟨⟨hm1, hm12⟩, hday1⟩, hdayv⟩, h0⟩, h1⟩

theorem isoTriple_reparse (t : Int) :
    isoTripleOfTime (daysFromCivil (isoTripleOfTime t) * msPerDay) = isoTripleOfTime t := by
  simp only [isoTripleOfTime]
  rw [Int.mul_ediv_cancel _ (show msPerDay ≠ 0 by norm_num [msPerDay]),
    days_civil_roundtrip]

/-! ## Toast service lemmas -/

theorem show'_toasts (s : ServiceState) (msg : String) (ty : ToastType)
    (dur : Option Int) (now : Nat) (rand : String) :
    ((show' s msg ty dur now rand).1).toasts =
      s.toasts ++ [⟨generateId now rand, msg, ty, dur.getD (DEFAULT_DURATION ty), now⟩] := by
  simp only [show', next]
  split <;> rfl

theorem show'_timers_pos (s : ServiceState) (msg : String) (ty : ToastType)
    (dur : Option Int) (now : Nat) (rand : String)
    (h : dur.getD (DEFAULT_DURATION ty) > 0) :
    ((show' s msg ty dur now rand).1).timers =
      s.timers ++ [(now + (dur.getD (DEFAULT_DURATION ty)).toNat, generateId now rand)] := by
  simp only [show', next, if_pos h]

theorem show'_timers_nonpos (s : ServiceState) (msg : String) (ty : ToastType)
    (dur : Option Int) (now : Nat) (rand : String)
    (h : ¬ dur.getD (DEFAULT_DURATION ty) > 0) :
    ((show' s msg ty dur now rand).1).timers = s.timers := by
  simp only [show', next, if_neg h]

theorem dismiss_not_target (i : String) (s : ServiceState) :
    ∀ y ∈ (dismiss i s).toasts, y.id ≠ i := by
  intro y hy
  simp only [dismiss, next] at hy
  obtain ⟨-, hp⟩ := List.mem_filter.1 hy
  simpa using hp

theorem dismiss_preserves_ne (i tgt : String) (s : ServiceState)
    (h : ∀ y ∈ s.toasts, y.id ≠ tgt) :
    ∀ y ∈ (dismiss i s).toasts, y.id ≠ tgt := by
  intro y hy
  simp only [dismiss, next] at hy
  exact h y (List.mem_filter.1 hy).1

theorem dismiss_mem_of_ne (i : String) (s : ServiceState) (x : Toast)
    (hx : x ∈ s.toasts) (hne : x.id ≠ i) : x ∈ (dismiss i s).toasts := by
  simp only [dismiss, next]
  exact List.mem_filter.2 ⟨hx, by simpa using hne⟩

theorem foldl_dismiss_mem (ids : List String) (s : ServiceState) (x : Toast)
    (hx : x ∈ s.toasts) (h : ∀ i ∈ ids, i ≠ x.id) :
    x ∈ (ids.foldl (fun st i => dismiss i st) s).toasts := by
  induction ids generalizing s with
  | nil => exact hx
  | cons i ids ih =>
    simp only [List.foldl_cons]
    exact ih (dismiss i s)
      (dismiss_mem_of_ne i s x hx (fun he => h i (List.mem_cons_self i ids) he.symm))
      (fun j hj => h j (List.mem_cons_of_mem i hj))

theorem foldl_dismiss_preserves_ne (ids : List String) (s : ServiceState) (tgt : String)
    (h : ∀ y ∈ s.toasts, y.id ≠ tgt) :
    ∀ y ∈ (ids.foldl (fun st i => dismiss i st) s).toasts, y.id ≠ tgt := by
  induction ids generalizing s with
  | nil => exact h
  | cons i ids ih =>
    simp only [List.foldl_cons]
    exact ih (dismiss i s) (dismiss_preserves_ne i tgt s h)

theorem foldl_dismiss_removes (ids : List String) (s : ServiceState) (tgt : String)
    (h : tgt ∈ ids) :
    ∀ y ∈ (ids.foldl (fun st i => dismiss i st) s).toasts, y.id ≠ tgt := by
  induction ids generalizing s with
  | nil => exact absurd h (List.not_mem_nil tgt)
  | cons i ids ih =>
    simp only [List.foldl_cons]
    rcases List.mem_cons.1 h with he | hm
    · rw [he]
      exact foldl_dismiss_preserves_ne ids (dismiss i s) i (dismiss_not_target i s)
    · exact ih (dismiss i s) hm

theorem fireDue_mem (t : Nat) (s : ServiceState) (x : Toast)
    (hx : x ∈ s.toasts) (h : ∀ p ∈ s.timers, p.2 ≠ x.id) :
    x ∈ (fireDue t s).toasts := by
  simp only [fireDue]
  refine foldl_dismiss_mem _ _ x hx ?_
  intro i hi
  obtain ⟨p, hp, hpe⟩ := List.mem_map.1 hi
  exact hpe ▸ h p (List.mem_filter.1 hp).1

theorem fireDue_removes (t : Nat) (s : ServiceState) (fa : Nat) (i : String)
    (hp : (fa, i) ∈ s.timers) (hfa : fa ≤ t) :
    ∀ y ∈ (fireDue t s).toasts, y.id ≠ i := by
  simp only [fireDue]
  refine foldl_dismiss_removes _ _ i ?_
  exact List.mem_map.2 ⟨(fa, i), List.mem_filter.2 ⟨hp, by simpa using hfa⟩, rfl⟩

theorem run_ids_sublist (ops : List Op) (s : ServiceState) :
    ((run s ops).toasts.map Toast.id).Sublist (s.toasts.map Toast.id ++ genIds ops) := by
  induction ops generalizing s with
  | nil =>
    simp only [run, List.foldl_nil, genIds, List.filterMap_nil, List.append_nil]
    exact List.Sublist.refl _
  | cons op ops ih =>
    have hrun : run s (op :: ops) = run (runOp s op) ops := rfl
    rw [hrun]
    cases op with
    | showOp msg ty dur now rand =>
      have hg : genIds (Op.showOp msg ty dur now rand :: ops) =
          generateId now rand :: genIds ops := rfl
      rw [hg]
      have ht : (runOp s (Op.showOp msg ty dur now rand)).toasts =
          s.toasts ++ [⟨generateId now rand, msg, ty, dur.getD (DEFAULT_DURATION ty), now⟩] :=
        show'_toasts s msg ty dur now rand
      have := ih (runOp s (Op.showOp msg ty dur now rand))
      rw [ht] at this
      simpa [List.append_assoc] using this
    | dismissOp i =>
      have hg : genIds (Op.dismissOp i :: ops) = genIds ops := rfl
      rw [hg]
      refine (ih (runOp s (Op.dismissOp i))).trans ?_
      refine List.Sublist.append ?_ (List.Sublist.refl _)
      exact List.Sublist.map Toast.id (List.filter_sublist s.toasts)
    | dismissAllOp =>
      have hg : genIds (Op.dismissAllOp :: ops) = genIds ops := rfl
      rw [hg]
      refine (ih (runOp s Op.dismissAllOp)).trans ?_
      simp only [runOp, dismissAll, next, List.map_nil, List.nil_append]
      exact List.sublist_append_right _ _

/-! ## Claims -/

/-- Claim C1, counterexample: `show` (and the convenience entry points) do
not return the created notification's id.  Their TypeScript return type is
`void`; no function of the returned value can recover the id, because calls
that generate different ids return the identical value `()`. -/
theorem c1_counterexample :
    ¬ ∃ f : Unit → String, ∀ (s : ServiceState) (msg : String) (ty : ToastType)
      (dur : Option Int) (now : Nat) (rand : String),
      f (show' s msg ty dur now rand).2 = generateId now rand := by
  rintro ⟨f, hf⟩
  have h1 := hf initState "m" ToastType.success none 0 "a"
  have h2 := hf initState "m" ToastType.success none 1 "b"
  have heq : generateId 0 "a" = generateId 1 "b" := by
    rw [← h1, ← h2]
  exact absurd heq (by decide)

/-- Claim C1, amended: `show` and the convenience entry points `success`,
`error`, `warning`, `info` return `void` (unit), not the id; the
convenience entry points are pure sugar over `show` with a fixed category;
the freshly generated id is carried only inside the appended notification,
so a caller cannot obtain it from the call. -/
theorem c1_show_returns_unit (s : ServiceState) (msg : String) (ty : ToastType)
    (dur : Option Int) (now : Nat) (rand : String) :
    (show' s msg ty dur now rand).2 = () ∧
    success s msg dur now rand = show' s msg ToastType.success dur now rand ∧
    error s msg dur now rand = show' s msg ToastType.error dur now rand ∧
    warning s msg dur now rand = show' s msg ToastType.warning dur now rand ∧
    info s msg dur now rand = show' s msg ToastType.info dur now rand ∧
    ((show' s msg ty dur now rand).1).toasts =
      s.toasts ++ [⟨generateId now rand, msg, ty, dur.getD (DEFAULT_DURATION ty), now⟩] :=
  ⟨rfl, rfl, rfl, rfl, rfl, show'_toasts s msg ty dur now rand⟩

/-- Claim C2: the code has no validation.  A call with an empty message and
a negative lifetime is not rejected with any error: the notification is
appended to the active set (with the empty message and negative duration
stored as given) and the call publishes it, contradicting the specified
`InvalidArgument` rejection. -/
theorem c2_no_validation :
    ((show' initState "" ToastType.success (some (-5)) 5 "x").1).toasts =
      [{ id := "toast-5-x", message := "", type := ToastType.success,
         duration := -5, createdAt := 5 }] ∧
    ((show' initState "" ToastType.success (some (-5)) 5 "x").1).timers = [] := by
  constructor <;> rfl

/-- Claim C3, counterexample: a second `dismiss` of the same id is not
equivalent to a single one: it publishes one more (identical) list to the
subject, so the resulting states differ in their emission history. -/
theorem c3_counterexample :
    dismiss "a" (dismiss "a" initState) ≠ dismiss "a" initState := by
  decide

/-- Claim C3, amended: `dismiss(id)` twice in succession leaves the active
set and the pending timers exactly as a single call does (dismissing an
absent id is a no-op on the active set, not an error), but the second call
does publish one further update, whose content is identical to the already
current list (an empty delta). -/
theorem c3_dismiss_state_idempotent (s : ServiceState) (i : String) :
    (dismiss i (dismiss i s)).toasts = (dismiss i s).toasts ∧
    (dismiss i (dismiss i s)).timers = (dismiss i s).timers ∧
    (dismiss i (dismiss i s)).published =
      (dismiss i s).published ++ [(dismiss i s).toasts] := by
  have hfil : (dismiss i s).toasts.filter (fun t => t.id != i) = (dismiss i s).toasts := by
    simp only [dismiss, next]
    rw [List.filter_filter]
    simp
  exact ⟨hfil, rfl, by
    show (dismiss i s).published ++ [(dismiss i s).toasts.filter (fun t => t.id != i)] =
      (dismiss i s).published ++ [(dismiss i s).toasts]
    rw [hfil]⟩

/-- Claim C4, counterexample: the id generator does not guarantee
freshness.  If two `show` calls observe the same `Date.now()` value and the
same random suffix, both notifications receive the same id and the active
set holds two entries with that id. -/
theorem c4_counterexample :
    ¬ ((run initState [Op.showOp "a" ToastType.success none 5 "x",
        Op.showOp "b" ToastType.success none 5 "x"]).toasts.map Toast.id).Nodup := by
  decide

/-- Claim C4, amended: in every state reachable by `show`, `dismiss` and
`dismissAll` operations whose generated ids (from the `Date.now()` and
random-suffix inputs) are pairwise distinct, the active set contains no two
notifications with the same id.  The code itself does not enforce this
distinctness. -/
theorem c4_nodup_of_fresh_ids (ops : List Op) (h : (genIds ops).Nodup) :
    ((run initState ops).toasts.map Toast.id).Nodup := by
  have hsub := run_ids_sublist ops initState
  simp only [initState, List.map_nil, List.nil_append] at hsub
  exact List.Nodup.sublist hsub h

/-- Witness for C4 at a concrete operation sequence with distinct ids. -/
theorem c4_witness :
    (genIds [Op.showOp "a" ToastType.success none 5 "x",
      Op.showOp "b" ToastType.success none 6 "y"]).Nodup ∧
    ((run initState [Op.showOp "a" ToastType.success none 5 "x",
      Op.showOp "b" ToastType.success none 6 "y"]).toasts.map Toast.id).Nodup :=
  ⟨by decide, c4_nodup_of_fresh_ids _ (by decide)⟩

/-- Claim C5, counterexample: the defaults are not monotone in the claimed
order `info ≤ success`: the info default (5000 ms) exceeds the success
default (4000 ms). -/
theorem c5_counterexample :
    ¬ (DEFAULT_DURATION ToastType.info ≤ DEFAULT_DURATION ToastType.success ∧
       DEFAULT_DURATION ToastType.success ≤ DEFAULT_DURATION ToastType.warning ∧
       DEFAULT_DURATION ToastType.warning ≤ DEFAULT_DURATION ToastType.error) := by
  decide

/-- Claim C5, amended: the per-category default lifetimes satisfy
`success ≤ info ≤ warning ≤ error` (the source's actual ordering); the
success default is the shortest and the error default is the longest. -/
theorem c5_defaults_order :
    DEFAULT_DURATION ToastType.success ≤ DEFAULT_DURATION ToastType.info ∧
    DEFAULT_DURATION ToastType.info ≤ DEFAULT_DURATION ToastType.warning ∧
    DEFAULT_DURATION ToastType.warning ≤ DEFAULT_DURATION ToastType.error ∧
    (∀ ty, DEFAULT_DURATION ToastType.success ≤ DEFAULT_DURATION ty) ∧
    (∀ ty, DEFAULT_DURATION ty ≤ DEFAULT_DURATION ToastType.error) := by
  refine ⟨by decide, by decide, by decide, ?_, ?_⟩ <;> intro ty <;> cases ty <;> decide

/-- Claim C7: immediately after `show` the active set contains exactly one
more entry than before, the new entry is last, and the previously present
entries keep their relative order (the new list is the old list with the
new notification appended). -/
theorem c7_show_appends (s : ServiceState) (msg : String) (ty : ToastType)
    (dur : Option Int) (now : Nat) (rand : String) :
    ((show' s msg ty dur now rand).1).toasts =
      s.toasts ++ [⟨generateId now rand, msg, ty, dur.getD (DEFAULT_DURATION ty), now⟩] ∧
    ((show' s msg ty dur now rand).1).toasts.length = s.toasts.length + 1 := by
  refine ⟨show'_toasts s msg ty dur now rand, ?_⟩
  rw [show'_toasts s msg ty dur now rand]
  simp

/-- Claim C6: a notification created with `lifetimeMs = 0` gets no
auto-expiry timer and stays in the active set at every later instant
(provided no pre-existing timer happens to target its id and it is not
explicitly dismissed), while a notification created with `lifetimeMs = 100`
is absent from the active set whenever the scheduler has run past
`creation + 100` milliseconds. -/
theorem c6_lifetimes (s : ServiceState) (msg : String) (ty : ToastType)
    (now : Nat) (rand : String)
    (hTimers : ∀ p ∈ s.timers, p.2 ≠ generateId now rand) :
    ((show' s msg ty (some 0) now rand).1).timers = s.timers ∧
    (∀ t, (⟨generateId now rand, msg, ty, 0, now⟩ : Toast) ∈
      (fireDue t (show' s msg ty (some 0) now rand).1).toasts) ∧
    (∀ t, now + 100 < t →
      ∀ x ∈ (fireDue t (show' s msg ty (some 100) now rand).1).toasts,
        x.id ≠ generateId now rand) := by
  have hz : ¬ ((some (0 : Int)).getD (DEFAULT_DURATION ty) > 0) := by simp
  refine ⟨show'_timers_nonpos s msg ty (some 0) now rand hz, ?_, ?_⟩
  · intro t
    apply fireDue_mem
    · rw [show'_toasts]
      simp [Option.getD]
    · rw [show'_timers_nonpos s msg ty (some 0) now rand hz]
      exact hTimers
  · intro t ht x hx
    refine fireDue_removes t _ (now + 100) (generateId now rand) ?_ (by omega) x hx
    rw [show'_timers_pos s msg ty (some 100) now rand (by simp)]
    simp

/-- Witness for C6 at a concrete state and time. -/
theorem c6_witness :
    (∀ p ∈ initState.timers, p.2 ≠ generateId 5 "x") ∧
    (((show' initState "m" ToastType.success (some 0) 5 "x").1).timers = initState.timers ∧
     (∀ t, (⟨generateId 5 "x", "m", ToastType.success, 0, 5⟩ : Toast) ∈
       (fireDue t (show' initState "m" ToastType.success (some 0) 5 "x").1).toasts) ∧
     (∀ t, 5 + 100 < t →
       ∀ x ∈ (fireDue t (show' initState "m" ToastType.success (some 100) 5 "x").1).toasts,
         x.id ≠ generateId 5 "x")) := by
  have h1 : ∀ p ∈ initState.timers, p.2 ≠ generateId 5 "x" := by
    simp [initState]
  exact ⟨h1, c6_lifetimes initState "m" ToastType.success 5 "x" h1⟩

/-- Claim C10: a `show` call with an explicit negative duration is not
rejected: the notification is appended with the negative duration stored
unchanged, no auto-expiry timer is scheduled (the guard requires a strictly
positive duration), and the notification survives every scheduler run
(provided no pre-existing timer targets its id), until explicitly
dismissed. -/
theorem c10_negative_duration (s : ServiceState) (msg : String) (ty : ToastType)
    (d : Int) (now : Nat) (rand : String)
    (hd : d < 0)
    (hTimers : ∀ p ∈ s.timers, p.2 ≠ generateId now rand) :
    ((show' s msg ty (some d) now rand).1).toasts =
      s.toasts ++ [⟨generateId now rand, msg, ty, d, now⟩] ∧
    ((show' s msg ty (some d) now rand).1).timers = s.timers ∧
    ∀ t, (⟨generateId now rand, msg, ty, d, now⟩ : Toast) ∈
      (fireDue t (show' s msg ty (some d) now rand).1).toasts := by
  have hnp : ¬ ((some d).getD (DEFAULT_DURATION ty) > 0) := by
    simp only [Option.getD_some]
    omega
  refine ⟨show'_toasts s msg ty (some d) now rand,
    show'_timers_nonpos s msg ty (some d) now rand hnp, ?_⟩
  intro t
  apply fireDue_mem
  · rw [show'_toasts]
    simp [Option.getD]
  · rw [show'_timers_nonpos s msg ty (some d) now rand hnp]
    exact hTimers

/-- Witness for C10 at a concrete negative duration. -/
theorem c10_witness :
    (-5 : Int) < 0 ∧ (∀ p ∈ initState.timers, p.2 ≠ generateId 5 "x") ∧
    (((show' initState "m" ToastType.success (some (-5)) 5 "x").1).toasts =
      initState.toasts ++ [⟨generateId 5 "x", "m", ToastType.success, -5, 5⟩] ∧
     ((show' initState "m" ToastType.success (some (-5)) 5 "x").1).timers = initState.timers ∧
     ∀ t, (⟨generateId 5 "x", "m", ToastType.success, -5, 5⟩ : Toast) ∈
       (fireDue t (show' initState "m" ToastType.success (some (-5)) 5 "x").1).toasts) := by
  have h1 : ∀ p ∈ initState.timers, p.2 ≠ generateId 5 "x" := by
    simp [initState]
  exact ⟨by norm_num, h1,
    c10_negative_duration initState "m" ToastType.success (-5) 5 "x" (by norm_num) h1⟩

/-- Claim C8: for every valid date-like input, formatting to the canonical
ISO date string, re-parsing that string, and re-formatting yields the same
`YYYY-MM-DD` string (for dates whose year fits the plain four-digit form). -/
theorem c8_iso_roundtrip (x : DateInput) (t : Int)
    (ht : toDate x = some t)
    (hy0 : 0 ≤ (isoTripleOfTime t).year) (hy1 : (isoTripleOfTime t).year ≤ 9999) :
    toISODateString x = some (renderISODate (isoTripleOfTime t)) ∧
    toISODateString (DateInput.ofString (isoTripleOfTime t)) =
      some (renderISODate (isoTripleOfTime t)) := by
  have hval : validCivil (isoTripleOfTime t) = true :=
    civilFromDays_valid (t / msPerDay) hy0 hy1
  constructor
  · rw [toISODateString, ht, Option.map_some']
  · rw [toISODateString]
    show (if validCivil (isoTripleOfTime t) then
        some (daysFromCivil (isoTripleOfTime t) * msPerDay) else none).map
        (fun u => renderISODate (isoTripleOfTime u)) = _
    rw [if_pos hval, Option.map_some', isoTriple_reparse]

/-- Witness for C8 at the epoch timestamp. -/
theorem c8_witness :
    toDate (DateInput.ofNumber 0) = some 0 ∧
    0 ≤ (isoTripleOfTime 0).year ∧ (isoTripleOfTime 0).year ≤ 9999 ∧
    (toISODateString (DateInput.ofNumber 0) = some (renderISODate (isoTripleOfTime 0)) ∧
     toISODateString (DateInput.ofString (isoTripleOfTime 0)) =
       some (renderISODate (isoTripleOfTime 0))) := by
  refine ⟨by decide, by decide, by decide, ?_⟩
  exact c8_iso_roundtrip (DateInput.ofNumber 0) 0 (by decide) (by decide) (by decide)

/-- Claim C9: `diffTime` is the millisecond difference `a - b` divided by a
fixed per-unit constant; the month constant is the fixed 30-day
approximation and the year constant the fixed 365-day approximation; and
concretely `diffTime("2025-01-18", "2025-01-15", "days") = 3`. -/
theorem c9_diffTime (a b : DateInput) (u : TimeUnit) (tA tB : Int)
    (ha : toDate a = some tA) (hb : toDate b = some tB) :
    diffTime a b u = some (((tA - tB : Int) : ℚ) / msPerUnit u) ∧
    msPerUnit TimeUnit.months = 30 * msPerUnit TimeUnit.days ∧
    msPerUnit TimeUnit.years = 365 * msPerUnit TimeUnit.days ∧
    diffTime (DateInput.ofString ⟨2025, 1, 18⟩) (DateInput.ofString ⟨2025, 1, 15⟩)
      TimeUnit.days = some 3 := by
  refine ⟨?_, by norm_num [msPerUnit], by norm_num [msPerUnit], ?_⟩
  · rw [diffTime, ha, hb]
    rfl
  · have h18 : toDate (DateInput.ofString ⟨2025, 1, 18⟩) = some 1737158400000 := by
      decide
    have h15 : toDate (DateInput.ofString ⟨2025, 1, 15⟩) = some 1736899200000 := by
      decide
    rw [diffTime, h18, h15]
    norm_num [msPerUnit]

/-- Witness for C9 at concrete numeric inputs. -/
theorem c9_witness :
    toDate (DateInput.ofNumber 7) = some 7 ∧ toDate (DateInput.ofNumber 3) = some 3 ∧
    (diffTime (DateInput.ofNumber 7) (DateInput.ofNumber 3) TimeUnit.milliseconds =
       some ((((7 : Int) - 3 : Int) : ℚ) / msPerUnit TimeUnit.milliseconds) ∧
     msPerUnit TimeUnit.months = 30 * msPerUnit TimeUnit.days ∧
     msPerUnit TimeUnit.years = 365 * msPerUnit TimeUnit.days ∧
     diffTime (DateInput.ofString ⟨2025, 1, 18⟩) (DateInput.ofString ⟨2025, 1, 15⟩)
       TimeUnit.days = some 3) := by
  refine ⟨by decide, by decide, ?_⟩
  exact c9_diffTime (DateInput.ofNumber 7) (DateInput.ofNumber 3) TimeUnit.milliseconds
    7 3 (by decide) (by decide)
